import Mathlib

/-
Verification development for the Calentian email ingestion and
classification pipeline.

The embedding covers:
  * the Assignment Worker (`email-zuordnung-service.js`, `runAssignment`):
    per-row decision chain and the table-level pass over all rows with
    `status = 0`;
  * the Message Persister (`saveMailToDB`, two variants in the repository):
    subject-based event-id extraction, HTML body derivation, and the
    inserted row;
  * the Attachment Store (`saveAttachments`): collision-safe naming with
    parenthesized counter suffixes;
  * the Mailbox Poller's relocation logic (`processNewestMail`): DONE /
    FAILED folder moves.

Database tables are modelled as association lists; `LIMIT 1` queries
return the first matching element.  Nullable SQL columns and absent
JavaScript fields are modelled as `Option`; JavaScript truthiness tests
(`if (x)`) are modelled explicitly, with `0`, `null` and the empty string
falsy.
-/

namespace Calentian

/-- JavaScript truthiness of a nullable integer column value: `null` and
`0` are falsy, every other number is truthy. -/
def jsTruthyNum : Option Nat → Bool
  | none => false
  | some n => n != 0

/-- JavaScript truthiness of a nullable string: `null` / `undefined` and
the empty string are falsy. -/
def jsTruthyStr : Option String → Bool
  | none => false
  | some s => s != ""

/-- One row of the `calentian_kunden_emails` table, with the column
layout used by the Message Persister's INSERT and the Assignment
Worker's `SELECT *`. -/
structure MailRow where
  id : Nat
  subject : String
  body : String
  htmlBody : String
  timestamp : String
  sender : String
  receiver : String
  receiver_unparsed : String
  message_ingoing : Nat
  status : Nat
  calentian_entries_id : Option Nat
  calentian_kundendaten_id : Option Nat
  calentian_event_entries_id : Option Nat
  attachments : Option String
  deriving Repr, DecidableEq

/-- Read-only environment of the Assignment Worker: the three lookup
tables it queries.  `entries` maps `calentian_mail` to the entry id,
`eventEntries` maps an event-entry id to its (nullable) `location_id`,
`addresses` maps an email address to `calentian_kundendaten_id`. -/
structure WorkerEnv where
  entries : List (String × Nat)
  eventEntries : List (Nat × Option Nat)
  addresses : List (String × Nat)
  deriving Repr, DecidableEq

/-- Query `SELECT id FROM calentian_entries WHERE calentian_mail = ? LIMIT 1`. -/
def entryLookup (env : WorkerEnv) (mail : String) : Option Nat :=
  (env.entries.find? (fun p => p.1 == mail)).map Prod.snd

/-- Query `SELECT location_id FROM calentian_event_entries WHERE id = ? LIMIT 1`;
`none` means no row, `some loc` the row's nullable `location_id`. -/
def eventLocationLookup (env : WorkerEnv) (eid : Nat) : Option (Option Nat) :=
  (env.eventEntries.find? (fun p => p.1 == eid)).map Prod.snd

/-- Function `findKundendatenIdByEmail`: query
`SELECT calentian_kundendaten_id FROM calentian_kunden_emails_addresses
WHERE email = ? LIMIT 1`, returning `null` when no row matches. -/
def findKundendatenIdByEmail (env : WorkerEnv) (address : String) : Option Nat :=
  (env.addresses.find? (fun p => p.1 == address)).map Prod.snd

/-- Counterparty address used for the customer lookup:
`message_ingoing === 1 ? sender : receiver`. -/
def counterpartyAddress (row : MailRow) : String :=
  if row.message_ingoing == 1 then row.sender else row.receiver

/-- Writes the Assignment Worker performs for one row of the snapshot:
the optional `calentian_entries_id` update of step 4.2, the optional
`calentian_kundendaten_id` update, and the `status` writes issued through
`updateEmailStatus` (in program order). -/
structure RowEffects where
  entryWrite : Option Nat
  customerWrite : Option Nat
  statusWrites : List Nat
  deriving Repr, DecidableEq

/-- Resolved entry id after step 4.2: the matched entry id when the
receiver address occurs in `calentian_entries.calentian_mail`, otherwise
the value the row already carried. -/
def resolvedEntryId (env : WorkerEnv) (row : MailRow) : Option Nat :=
  match entryLookup env row.receiver with
  | some e => some e
  | none => row.calentian_entries_id

/-- Section 4.4 of `runAssignment` (the no-event / abandoned-event
fall-through): status 3 when a customer is known or found (storing a
found customer id), status 4 otherwise.  `entryFound` is the result of
the step 4.2 entry match, recorded as the `calentian_entries_id` write. -/
def noEventEffects (env : WorkerEnv) (row : MailRow) (entryFound : Option Nat) :
    RowEffects :=
  if jsTruthyNum row.calentian_kundendaten_id then
    { entryWrite := entryFound, customerWrite := none, statusWrites := [3] }
  else
    match findKundendatenIdByEmail env (counterpartyAddress row) with
    | some k =>
      if k != 0 then
        { entryWrite := entryFound, customerWrite := some k, statusWrites := [3] }
      else
        { entryWrite := entryFound, customerWrite := none, statusWrites := [4] }
    | none =>
      { entryWrite := entryFound, customerWrite := none, statusWrites := [4] }

/-- Matched event branch of `runAssignment` (step 4.3, after
`ev.location_id === entryId` held): status 1 when a customer is known or
found (storing a found customer id), status 2 otherwise. -/
def eventEffects (env : WorkerEnv) (row : MailRow) (entryFound : Option Nat) :
    RowEffects :=
  if jsTruthyNum row.calentian_kundendaten_id then
    { entryWrite := entryFound, customerWrite := none, statusWrites := [1] }
  else
    match findKundendatenIdByEmail env (counterpartyAddress row) with
    | some k =>
      if k != 0 then
        { entryWrite := entryFound, customerWrite := some k, statusWrites := [1] }
      else
        { entryWrite := entryFound, customerWrite := none, statusWrites := [2] }
    | none =>
      { entryWrite := entryFound, customerWrite := none, statusWrites := [2] }

/-- Loop body of `runAssignment` for one snapshot row.  Step 4.2 matches
the receiver against `calentian_entries`; step 4.3 enters the event
branch only when `calentian_event_entries_id` is truthy, the event row
exists, and its `location_id` strictly equals the resolved entry id
(JavaScript `===`, under which `null === null` holds); otherwise the
fall-through of step 4.4 runs. -/
def processRow (env : WorkerEnv) (row : MailRow) : RowEffects :=
  match row.calentian_event_entries_id with
  | some eid =>
    if eid != 0 then
      match eventLocationLookup env eid with
      | some loc =>
        if loc == resolvedEntryId env row then
          eventEffects env row (entryLookup env row.receiver)
        else noEventEffects env row (entryLookup env row.receiver)
      | none => noEventEffects env row (entryLookup env row.receiver)
    else noEventEffects env row (entryLookup env row.receiver)
  | none => noEventEffects env row (entryLookup env row.receiver)

/-- Statement `UPDATE calentian_kunden_emails SET calentian_entries_id = ?
WHERE id = ?`. -/
def updateEntriesId (tbl : List MailRow) (emailId e : Nat) : List MailRow :=
  tbl.map fun r =>
    if r.id == emailId then { r with calentian_entries_id := some e } else r

/-- Statement `UPDATE calentian_kunden_emails SET calentian_kundendaten_id = ?
WHERE id = ?`. -/
def updateKundendatenId (tbl : List MailRow) (emailId k : Nat) : List MailRow :=
  tbl.map fun r =>
    if r.id == emailId then { r with calentian_kundendaten_id := some k } else r

/-- Function `updateEmailStatus`: `UPDATE calentian_kunden_emails SET
status = ? WHERE id = ?` (the accompanying socket emission carries no
database effect). -/
def updateEmailStatus (tbl : List MailRow) (emailId st : Nat) : List MailRow :=
  tbl.map fun r =>
    if r.id == emailId then { r with status := st } else r

/-- Apply the recorded writes of one loop iteration to the table, in
program order: the entry update of step 4.2 first, then the customer id
update, then the `updateEmailStatus` calls. -/
def applyEffects (tbl : List MailRow) (emailId : Nat) (eff : RowEffects) :
    List MailRow :=
  let t1 := match eff.entryWrite with
    | some e => updateEntriesId tbl emailId e
    | none => tbl
  let t2 := match eff.customerWrite with
    | some k => updateKundendatenId t1 emailId k
    | none => t1
  eff.statusWrites.foldl (fun t s => updateEmailStatus t emailId s) t2

/-- One pass of `runAssignment`: snapshot all rows with `status = 0`
(`SELECT * FROM calentian_kunden_emails WHERE status = 0`), then process
each snapshot row in order, applying its writes to the table. -/
def runAssignmentPass (env : WorkerEnv) (tbl : List MailRow) : List MailRow :=
  let snapshot := tbl.filter (fun r => r.status == 0)
  snapshot.foldl (fun acc r => applyEffects acc r.id (processRow env r)) tbl

/-- Effect of the optional `calentian_entries_id` write on a single row. -/
def applyEntryRow : Option Nat → MailRow → MailRow
  | some e, r => { r with calentian_entries_id := some e }
  | none, r => r

/-- Effect of the optional `calentian_kundendaten_id` write on a single row. -/
def applyCustomerRow : Option Nat → MailRow → MailRow
  | some k, r => { r with calentian_kundendaten_id := some k }
  | none, r => r

/-- The writes of one loop iteration, restricted to a single row value
(used to characterize the pass when row ids are unique). -/
def applyEffectsRow (eff : RowEffects) (r : MailRow) : MailRow :=
  eff.statusWrites.foldl (fun x s => { x with status := s })
    (applyCustomerRow eff.customerWrite (applyEntryRow eff.entryWrite r))

theorem applyEntryRow_id (w : Option Nat) (r : MailRow) :
    (applyEntryRow w r).id = r.id := by
  cases w <;> rfl

theorem applyCustomerRow_id (w : Option Nat) (r : MailRow) :
    (applyCustomerRow w r).id = r.id := by
  cases w <;> rfl

theorem statusFoldl_id (l : List Nat) (y : MailRow) :
    (l.foldl (fun x s => { x with status := s }) y).id = y.id := by
  induction l generalizing y with
  | nil => rfl
  | cons s rest ih => exact ih { y with status := s }

theorem applyEffectsRow_id (eff : RowEffects) (r : MailRow) :
    (applyEffectsRow eff r).id = r.id := by
  unfold applyEffectsRow
  rw [statusFoldl_id, applyCustomerRow_id, applyEntryRow_id]

theorem applyEffectsRow_status (eff : RowEffects) (r : MailRow) (s : Nat)
    (h : eff.statusWrites = [s]) : (applyEffectsRow eff r).status = s := by
  unfold applyEffectsRow
  rw [h]
  rfl

theorem foldl_map_comm {α β : Type} (l : List β) (tbl : List α) (h : β → α → α)
    (f : α → α) :
    l.foldl (fun t s => t.map (h s)) (tbl.map f)
      = tbl.map (fun x => l.foldl (fun y s => h s y) (f x)) := by
  induction l generalizing f with
  | nil => rfl
  | cons s rest ih =>
    simp only [List.foldl_cons, List.map_map]
    exact ih (fun x => h s (f x))

theorem statusFoldl_of_id_eq (l : List Nat) (emailId : Nat) (y : MailRow)
    (hy : y.id = emailId) :
    l.foldl (fun x s => if x.id == emailId then { x with status := s } else x) y
      = l.foldl (fun x s => { x with status := s }) y := by
  induction l generalizing y with
  | nil => rfl
  | cons s rest ih =>
    have hcond : (y.id == emailId) = true := by simp [hy]
    simp only [List.foldl_cons, hcond, if_true]
    exact ih { y with status := s } hy

theorem statusFoldl_of_id_ne (l : List Nat) (emailId : Nat) (y : MailRow)
    (hy : ¬ y.id = emailId) :
    l.foldl (fun x s => if x.id == emailId then { x with status := s } else x) y
      = y := by
  induction l generalizing y with
  | nil => rfl
  | cons s rest ih =>
    have hcond : (y.id == emailId) = false := by simpa using hy
    simp only [List.foldl_cons, hcond, Bool.false_eq_true, if_false]
    exact ih y hy

theorem statusWrites_foldl_map (sw : List Nat) (emailId : Nat)
    (tbl : List MailRow) (f : MailRow → MailRow) :
    sw.foldl (fun t s => updateEmailStatus t emailId s) (tbl.map f)
      = tbl.map (fun x =>
          sw.foldl (fun y s => if y.id == emailId then { y with status := s } else y)
            (f x)) := by
  induction sw generalizing f with
  | nil => rfl
  | cons s rest ih =>
    simp only [List.foldl_cons, updateEmailStatus, List.map_map]
    exact ih ((fun r => if r.id == emailId then { r with status := s } else r) ∘ f)

theorem applyEffects_eq (tbl : List MailRow) (emailId : Nat) (eff : RowEffects) :
    applyEffects tbl emailId eff
      = tbl.map (fun r => if r.id == emailId then applyEffectsRow eff r else r) := by
  rcases eff with ⟨ew, cw, sw⟩
  have hinit : applyEffects tbl emailId ⟨ew, cw, sw⟩
      = sw.foldl (fun t s => updateEmailStatus t emailId s)
          (tbl.map (fun r =>
            if r.id == emailId then applyCustomerRow cw (applyEntryRow ew r) else r)) := by
    have hbase :
        (match cw with
          | some k => updateKundendatenId
              (match ew with
                | some e => updateEntriesId tbl emailId e
                | none => tbl) emailId k
          | none =>
              (match ew with
                | some e => updateEntriesId tbl emailId e
                | none => tbl))
        = tbl.map (fun r =>
            if r.id == emailId then applyCustomerRow cw (applyEntryRow ew r) else r) := by
      cases ew with
      | some e =>
        cases cw with
        | some k =>
          simp only [updateEntriesId, updateKundendatenId, List.map_map]
          refine (List.map_congr_left ?_).symm
          intro r _
          by_cases hid : r.id = emailId <;>
            simp [Function.comp, applyEntryRow, applyCustomerRow, hid]
        | none =>
          simp only [updateEntriesId]
          refine (List.map_congr_left ?_).symm
          intro r _
          by_cases hid : r.id = emailId <;>
            simp [applyEntryRow, applyCustomerRow, hid]
      | none =>
        cases cw with
        | some k =>
          simp only [updateKundendatenId]
          refine (List.map_congr_left ?_).symm
          intro r _
          by_cases hid : r.id = emailId <;>
            simp [applyEntryRow, applyCustomerRow, hid]
        | none =>
          have hfun : (fun r : MailRow =>
              if r.id == emailId then applyCustomerRow none (applyEntryRow none r) else r)
              = fun r => r := by
            funext r
            by_cases hid : r.id = emailId <;>
              simp [applyEntryRow, applyCustomerRow, hid]
          rw [hfun]
          exact (List.map_id' tbl).symm
    show sw.foldl (fun t s => updateEmailStatus t emailId s) _ = _
    exact congrArg (fun t => sw.foldl (fun t s => updateEmailStatus t emailId s) t) hbase
  rw [hinit, statusWrites_foldl_map]
  refine List.map_congr_left ?_
  intro r _
  by_cases hid : r.id = emailId
  · have h1 : (applyCustomerRow cw (applyEntryRow ew r)).id = emailId := by
      rw [applyCustomerRow_id, applyEntryRow_id, hid]
    have hc : (r.id == emailId) = true := by simp [hid]
    simp only [hc, if_true]
    rw [statusFoldl_of_id_eq _ _ _ h1]
    rfl
  · have hc : (r.id == emailId) = false := by simpa using hid
    simp only [hc, Bool.false_eq_true, if_false]
    exact statusFoldl_of_id_ne _ _ _ hid

theorem foldl_rows_noop (env : WorkerEnv) (i : Nat) :
    ∀ (S : List MailRow) (x : MailRow), x.id = i → (∀ s ∈ S, ¬ s.id = i) →
      S.foldl (fun y r =>
        if y.id == r.id then applyEffectsRow (processRow env r) y else y) x = x := by
  intro S
  induction S with
  | nil => intro x _ _; rfl
  | cons a S ih =>
    intro x hx hS
    have ha : (x.id == a.id) = false := by
      simp only [beq_eq_false_iff_ne, ne_eq, hx]
      intro h
      exact hS a (List.mem_cons_self a S) h.symm
    simp only [List.foldl_cons, ha, Bool.false_eq_true, if_false]
    exact ih x hx (fun s hs => hS s (List.mem_cons_of_mem a hs))

theorem pass_foldl_map (env : WorkerEnv) (tbl : List MailRow) :
    ∀ (S : List MailRow) (f : MailRow → MailRow),
      S.foldl (fun acc r => applyEffects acc r.id (processRow env r)) (tbl.map f)
        = tbl.map (fun x =>
            S.foldl (fun y r =>
              if y.id == r.id then applyEffectsRow (processRow env r) y else y) (f x)) := by
  intro S
  induction S with
  | nil => intro f; rfl
  | cons a S ih =>
    intro f
    rw [List.foldl_cons, applyEffects_eq, List.map_map]
    exact ih ((fun y => if y.id == a.id then applyEffectsRow (processRow env a) y else y) ∘ f)

/-- With unique row ids, one Assignment Worker pass acts pointwise: a row
with `status = 0` is replaced by the result of its own loop iteration and
every other row is left untouched. -/
theorem runAssignmentPass_eq (env : WorkerEnv) (tbl : List MailRow)
    (hids : (tbl.map MailRow.id).Nodup) :
    runAssignmentPass env tbl
      = tbl.map (fun r =>
          if r.status == 0 then applyEffectsRow (processRow env r) r else r) := by
  have h0 : runAssignmentPass env tbl
      = tbl.map (fun x => (tbl.filter (fun r => r.status == 0)).foldl
          (fun y r =>
            if y.id == r.id then applyEffectsRow (processRow env r) y else y) x) := by
    have h1 := pass_foldl_map env tbl (tbl.filter (fun r => r.status == 0)) id
    rw [List.map_id] at h1
    exact h1
  rw [h0]
  refine List.map_congr_left ?_
  intro x hx
  by_cases hst : x.status = 0
  · have hxs : x ∈ tbl.filter (fun r => r.status == 0) := by
      simp [List.mem_filter, hx, hst]
    obtain ⟨A, B, hAB⟩ := List.append_of_mem hxs
    have hsub : ((tbl.filter (fun r => r.status == 0)).map MailRow.id).Sublist
        (tbl.map MailRow.id) := (List.filter_sublist tbl).map MailRow.id
    have hnodS : ((tbl.filter (fun r => r.status == 0)).map MailRow.id).Nodup :=
      hids.sublist hsub
    rw [hAB] at hnodS
    simp only [List.map_append, List.map_cons, List.nodup_append, List.nodup_cons] at hnodS
    have hA : ∀ s ∈ A, ¬ s.id = x.id := by
      intro s hs hsx
      exact hnodS.2.2 (List.mem_map_of_mem MailRow.id hs) (by simp [hsx])
    have hB : ∀ s ∈ B, ¬ s.id = x.id := by
      intro s hs hsx
      refine hnodS.2.1.1 ?_
      rw [← hsx]
      exact List.mem_map_of_mem MailRow.id hs
    rw [hAB, List.foldl_append]
    rw [foldl_rows_noop env x.id A x rfl hA]
    have hc : (x.id == x.id) = true := by simp
    simp only [List.foldl_cons, hc, if_true]
    rw [foldl_rows_noop env x.id B (applyEffectsRow (processRow env x) x)
      (applyEffectsRow_id _ _) hB]
    have hcs : (x.status == 0) = true := by simp [hst]
    rw [hcs]
    simp
  · have hS : ∀ s ∈ tbl.filter (fun r => r.status == 0), ¬ s.id = x.id := by
      intro s hs hsx
      have hsm : s ∈ tbl := (List.mem_filter.mp hs).1
      have hs0 : s.status = 0 := by simpa using (List.mem_filter.mp hs).2
      have hsx2 : s = x := List.inj_on_of_nodup_map hids hsm hx hsx
      rw [hsx2] at hs0
      exact hst hs0
    rw [foldl_rows_noop env x.id _ x rfl hS]
    have hcs : (x.status == 0) = false := by simpa using hst
    rw [hcs]
    simp

theorem noEventEffects_statusWrites (env : WorkerEnv) (row : MailRow)
    (entryFound : Option Nat) :
    (noEventEffects env row entryFound).statusWrites = [3] ∨
      (noEventEffects env row entryFound).statusWrites = [4] := by
  unfold noEventEffects
  split
  · exact Or.inl rfl
  · split
    · split
      · exact Or.inl rfl
      · exact Or.inr rfl
    · exact Or.inr rfl

theorem eventEffects_statusWrites (env : WorkerEnv) (row : MailRow)
    (entryFound : Option Nat) :
    (eventEffects env row entryFound).statusWrites = [1] ∨
      (eventEffects env row entryFound).statusWrites = [2] := by
  unfold eventEffects
  split
  · exact Or.inl rfl
  · split
    · split
      · exact Or.inl rfl
      · exact Or.inr rfl
    · exact Or.inr rfl

/-- Every loop iteration of `runAssignment` issues exactly one
`updateEmailStatus` call and its value is a terminal code. -/
theorem processRow_one_terminal_write (env : WorkerEnv) (row : MailRow) :
    ∃ s, (processRow env row).statusWrites = [s] ∧
      (s = 1 ∨ s = 2 ∨ s = 3 ∨ s = 4) := by
  have hno : ∀ ef : Option Nat, ∃ s, (noEventEffects env row ef).statusWrites = [s] ∧
      (s = 1 ∨ s = 2 ∨ s = 3 ∨ s = 4) := by
    intro ef
    rcases noEventEffects_statusWrites env row ef with h | h
    · exact ⟨3, h, by simp⟩
    · exact ⟨4, h, by simp⟩
  have hev : ∀ ef : Option Nat, ∃ s, (eventEffects env row ef).statusWrites = [s] ∧
      (s = 1 ∨ s = 2 ∨ s = 3 ∨ s = 4) := by
    intro ef
    rcases eventEffects_statusWrites env row ef with h | h
    · exact ⟨1, h, by simp⟩
    · exact ⟨2, h, by simp⟩
  unfold processRow
  split
  · split
    · split
      · split
        · exact hev _
        · exact hno _
      · exact hno _
    · exact hno _
  · exact hno _

/-- C1: every InboundMessage row read by one Assignment Worker pass (scan
predicate `status = 0`) receives exactly one terminal status write with a
value in 1..4, and under unique row ids no row read by the pass is still
at status 0 afterwards. -/
theorem c1_pass_always_writes_terminal_status (env : WorkerEnv)
    (tbl : List MailRow) (hids : (tbl.map MailRow.id).Nodup) :
    (∀ row : MailRow, ∃ s, (processRow env row).statusWrites = [s] ∧
        (s = 1 ∨ s = 2 ∨ s = 3 ∨ s = 4)) ∧
    (∀ (i : Nat) (r : MailRow), tbl[i]? = some r → r.status = 0 →
      ∃ r2 : MailRow, (runAssignmentPass env tbl)[i]? = some r2 ∧
        (r2.status = 1 ∨ r2.status = 2 ∨ r2.status = 3 ∨ r2.status = 4)) := by
  refine ⟨fun row => processRow_one_terminal_write env row, ?_⟩
  intro i r hr hst
  rw [runAssignmentPass_eq env tbl hids, List.getElem?_map, hr]
  refine ⟨applyEffectsRow (processRow env r) r, ?_, ?_⟩
  · have hcs : (r.status == 0) = true := by simp [hst]
    simp only [Option.map_some']
    rw [hcs]
    simp
  · obtain ⟨s, hs, hs14⟩ := processRow_one_terminal_write env r
    have := applyEffectsRow_status (processRow env r) r s hs
    rw [this]
    exact hs14

/-- C8: a row already holding a terminal (non-zero) status is excluded by
the scan predicate, and one Assignment Worker pass returns it unchanged
in every column, at its original position. -/
theorem c8_terminal_rows_unchanged (env : WorkerEnv) (tbl : List MailRow)
    (hids : (tbl.map MailRow.id).Nodup) (i : Nat) (r : MailRow)
    (hr : tbl[i]? = some r) (hst : r.status ≠ 0) :
    (runAssignmentPass env tbl)[i]? = some r := by
  rw [runAssignmentPass_eq env tbl hids, List.getElem?_map, hr]
  have hcs : (r.status == 0) = false := by simpa using hst
  simp only [Option.map_some']
  rw [hcs]
  simp

/-- Well-formedness of the customer address directory: stored
`calentian_kundendaten_id` values are real (hence non-zero) foreign
keys. -/
def AddrDirWF (env : WorkerEnv) : Prop :=
  ∀ p ∈ env.addresses, p.2 ≠ 0

theorem findKundendaten_ne_zero (env : WorkerEnv) (hWF : AddrDirWF env)
    (a : String) (k : Nat) (hk : findKundendatenIdByEmail env a = some k) :
    k ≠ 0 := by
  unfold findKundendatenIdByEmail at hk
  rw [Option.map_eq_some'] at hk
  obtain ⟨pr, hfind, hsnd⟩ := hk
  have hmem := List.mem_of_find?_eq_some hfind
  have := hWF pr hmem
  rw [← hsnd]
  exact this

theorem eventEffects_spec (env : WorkerEnv) (row : MailRow)
    (ef : Option Nat) (hWF : AddrDirWF env) :
    (jsTruthyNum row.calentian_kundendaten_id = true →
      (eventEffects env row ef).statusWrites = [1] ∧
        (eventEffects env row ef).customerWrite = none) ∧
    (jsTruthyNum row.calentian_kundendaten_id = false →
      ((∃ k, findKundendatenIdByEmail env (counterpartyAddress row) = some k ∧
          (eventEffects env row ef).customerWrite = some k ∧
          (eventEffects env row ef).statusWrites = [1]) ∨
        (findKundendatenIdByEmail env (counterpartyAddress row) = none ∧
          (eventEffects env row ef).customerWrite = none ∧
          (eventEffects env row ef).statusWrites = [2]))) := by
  constructor
  · intro htr
    simp [eventEffects, htr]
  · intro hfa
    simp only [eventEffects, hfa, Bool.false_eq_true, if_false]
    cases hk : findKundendatenIdByEmail env (counterpartyAddress row) with
    | none =>
      right
      simp [hk]
    | some k =>
      left
      have hk0 : (k != 0) = true := by
        simpa using findKundendaten_ne_zero env hWF _ k hk
      refine ⟨k, rfl, ?_, ?_⟩ <;> simp [hk, hk0]

theorem noEventEffects_spec (env : WorkerEnv) (row : MailRow)
    (ef : Option Nat) (hWF : AddrDirWF env) :
    (jsTruthyNum row.calentian_kundendaten_id = true →
      (noEventEffects env row ef).statusWrites = [3] ∧
        (noEventEffects env row ef).customerWrite = none) ∧
    (jsTruthyNum row.calentian_kundendaten_id = false →
      ((∃ k, findKundendatenIdByEmail env (counterpartyAddress row) = some k ∧
          (noEventEffects env row ef).customerWrite = some k ∧
          (noEventEffects env row ef).statusWrites = [3]) ∨
        (findKundendatenIdByEmail env (counterpartyAddress row) = none ∧
          (noEventEffects env row ef).customerWrite = none ∧
          (noEventEffects env row ef).statusWrites = [4]))) := by
  constructor
  · intro htr
    simp [noEventEffects, htr]
  · intro hfa
    simp only [noEventEffects, hfa, Bool.false_eq_true, if_false]
    cases hk : findKundendatenIdByEmail env (counterpartyAddress row) with
    | none =>
      right
      simp [hk]
    | some k =>
      left
      have hk0 : (k != 0) = true := by
        simpa using findKundendaten_ne_zero env hWF _ k hk
      refine ⟨k, rfl, ?_, ?_⟩ <;> simp [hk, hk0]

theorem processRow_event_matched (env : WorkerEnv) (row : MailRow)
    (eid : Nat) (loc : Option Nat)
    (he : row.calentian_event_entries_id = some eid) (he0 : eid ≠ 0)
    (hloc : eventLocationLookup env eid = some loc)
    (hmatch : loc = resolvedEntryId env row) :
    processRow env row = eventEffects env row (entryLookup env row.receiver) := by
  have h0 : (eid != 0) = true := by simpa using he0
  have hm : (loc == resolvedEntryId env row) = true := by simp [hmatch]
  simp only [processRow, he, h0, if_true, hloc, hm]

theorem processRow_event_abandoned (env : WorkerEnv) (row : MailRow)
    (habandon : row.calentian_event_entries_id = none ∨
      (∃ eid loc, row.calentian_event_entries_id = some eid ∧
        eventLocationLookup env eid = some loc ∧ loc ≠ resolvedEntryId env row)) :
    processRow env row = noEventEffects env row (entryLookup env row.receiver) := by
  rcases habandon with h | ⟨eid, loc, he, hloc, hne⟩
  · simp only [processRow, h]
  · have hm : (loc == resolvedEntryId env row) = false := by simpa using hne
    by_cases h0 : eid = 0
    · simp [processRow, he, h0]
    · have h0b : (eid != 0) = true := by simpa using h0
      simp only [processRow, he, h0b, if_true, hloc, hm, Bool.false_eq_true, if_false]

/-- C2: status-0 message with a truthy event id whose event row exists and
whose `location_id` equals the resolved entry id: a known customer gives
terminal status 1 with no customer write; otherwise the counterparty
address lookup gives status 1 storing the found customer id on a hit, and
status 2 with no customer write on a miss. -/
theorem c2_event_branch_classification (env : WorkerEnv) (row : MailRow)
    (eid : Nat) (loc : Option Nat) (hWF : AddrDirWF env)
    (hst : row.status = 0)
    (he : row.calentian_event_entries_id = some eid) (he0 : eid ≠ 0)
    (hloc : eventLocationLookup env eid = some loc)
    (hmatch : loc = resolvedEntryId env row) :
    (jsTruthyNum row.calentian_kundendaten_id = true →
      (processRow env row).statusWrites = [1] ∧
        (processRow env row).customerWrite = none) ∧
    (jsTruthyNum row.calentian_kundendaten_id = false →
      ((∃ k, findKundendatenIdByEmail env (counterpartyAddress row) = some k ∧
          (processRow env row).customerWrite = some k ∧
          (processRow env row).statusWrites = [1]) ∨
        (findKundendatenIdByEmail env (counterpartyAddress row) = none ∧
          (processRow env row).customerWrite = none ∧
          (processRow env row).statusWrites = [2]))) := by
  rw [processRow_event_matched env row eid loc he he0 hloc hmatch]
  exact eventEffects_spec env row (entryLookup env row.receiver) hWF

/-- C3: a status-0 message whose event id is null, or whose event's
`location_id` differs from the resolved entry id, is classified by the
fall-through branch: status 3 when a customer is already set or the
counterparty lookup hits (storing the found id), status 4 with no
customer write otherwise. -/
theorem c3_fallthrough_classification (env : WorkerEnv) (row : MailRow)
    (hWF : AddrDirWF env) (hst : row.status = 0)
    (habandon : row.calentian_event_entries_id = none ∨
      (∃ eid loc, row.calentian_event_entries_id = some eid ∧
        eventLocationLookup env eid = some loc ∧ loc ≠ resolvedEntryId env row)) :
    (jsTruthyNum row.calentian_kundendaten_id = true →
      (processRow env row).statusWrites = [3] ∧
        (processRow env row).customerWrite = none) ∧
    (jsTruthyNum row.calentian_kundendaten_id = false →
      ((∃ k, findKundendatenIdByEmail env (counterpartyAddress row) = some k ∧
          (processRow env row).customerWrite = some k ∧
          (processRow env row).statusWrites = [3]) ∨
        (findKundendatenIdByEmail env (counterpartyAddress row) = none ∧
          (processRow env row).customerWrite = none ∧
          (processRow env row).statusWrites = [4]))) := by
  rw [processRow_event_abandoned env row habandon]
  exact noEventEffects_spec env row (entryLookup env row.receiver) hWF

/-- Equality of two mail rows in every column except `status`. -/
def EqExceptStatus (r r2 : MailRow) : Prop :=
  r.id = r2.id ∧ r.subject = r2.subject ∧ r.body = r2.body ∧
  r.htmlBody = r2.htmlBody ∧ r.timestamp = r2.timestamp ∧
  r.sender = r2.sender ∧ r.receiver = r2.receiver ∧
  r.receiver_unparsed = r2.receiver_unparsed ∧
  r.message_ingoing = r2.message_ingoing ∧
  r.calentian_entries_id = r2.calentian_entries_id ∧
  r.calentian_kundendaten_id = r2.calentian_kundendaten_id ∧
  r.calentian_event_entries_id = r2.calentian_event_entries_id ∧
  r.attachments = r2.attachments

theorem eventEffects_no_customer_on_2 (env : WorkerEnv) (row : MailRow)
    (ef : Option Nat) :
    (eventEffects env row ef).statusWrites = [2] →
      (eventEffects env row ef).customerWrite = none := by
  unfold eventEffects
  split
  · intro h
    simp at h
  · split
    · split
      · intro h
        simp at h
      · intro _
        rfl
    · intro _
      rfl

theorem noEventEffects_no_customer_on_4 (env : WorkerEnv) (row : MailRow)
    (ef : Option Nat) :
    (noEventEffects env row ef).statusWrites = [4] →
      (noEventEffects env row ef).customerWrite = none := by
  unfold noEventEffects
  split
  · intro h
    simp at h
  · split
    · split
      · intro h
        simp at h
      · intro _
        rfl
    · intro _
      rfl

theorem processRow_cases (env : WorkerEnv) (row : MailRow) :
    processRow env row = eventEffects env row (entryLookup env row.receiver) ∨
    processRow env row = noEventEffects env row (entryLookup env row.receiver) := by
  unfold processRow
  split
  · split
    · split
      · split
        · exact Or.inl rfl
        · exact Or.inr rfl
      · exact Or.inr rfl
    · exact Or.inr rfl
  · exact Or.inr rfl

/-- C10: `updateEmailStatus` modifies only the `status` column of the
addressed row and leaves non-addressed rows untouched, and the loop
iterations that end in status 2 or 4 issue no `calentian_kundendaten_id`
write. -/
theorem c10_status_update_frame (env : WorkerEnv) (tbl : List MailRow)
    (emailId st : Nat) :
    (∀ (i : Nat) (r : MailRow), tbl[i]? = some r →
      ∃ r2 : MailRow, (updateEmailStatus tbl emailId st)[i]? = some r2 ∧
        EqExceptStatus r r2 ∧ (r.id ≠ emailId → r2 = r)) ∧
    (∀ row : MailRow,
      ((processRow env row).statusWrites = [2] ∨
        (processRow env row).statusWrites = [4]) →
      (processRow env row).customerWrite = none) := by
  constructor
  · intro i r hr
    refine ⟨if r.id == emailId then { r with status := st } else r, ?_, ?_, ?_⟩
    · rw [updateEmailStatus, List.getElem?_map, hr, Option.map_some']
    · by_cases hid : r.id = emailId
      · have hc : (r.id == emailId) = true := by simp [hid]
        rw [hc]
        simp only [if_true]
        exact ⟨rfl, rfl, rfl, rfl, rfl, rfl, rfl, rfl, rfl, rfl, rfl, rfl, rfl⟩
      · have hc : (r.id == emailId) = false := by simpa using hid
        rw [hc]
        simp only [Bool.false_eq_true, if_false]
        exact ⟨rfl, rfl, rfl, rfl, rfl, rfl, rfl, rfl, rfl, rfl, rfl, rfl, rfl⟩
    · intro hid
      have hc : (r.id == emailId) = false := by simpa using hid
      rw [hc]
      simp
  · intro row h
    rcases processRow_cases env row with hc | hc <;> rw [hc] at h ⊢
    · rcases h with h | h
      · exact eventEffects_no_customer_on_2 env row _ h
      · rcases eventEffects_statusWrites env row (entryLookup env row.receiver) with he | he
        · exact absurd (he.symm.trans h) (by simp)
        · exact absurd (he.symm.trans h) (by simp)
    · rcases h with h | h
      · rcases noEventEffects_statusWrites env row (entryLookup env row.receiver) with he | he
        · exact absurd (he.symm.trans h) (by simp)
        · exact absurd (he.symm.trans h) (by simp)
      · exact noEventEffects_no_customer_on_4 env row _ h

/-- Concrete worker environment used by the witnesses: one tenant entry,
two event entries (one owned by the tenant, one not), one customer
address. -/
def envW : WorkerEnv :=
  ⟨[("venue@calentian.de", 5)], [(10, some 5), (11, some 6)],
    [("cust@example.com", 7)]⟩

/-- Concrete unclassified inbound row: receiver is the tenant address,
sender is the known customer, event entry 10 (owned by the tenant). -/
def rowW : MailRow :=
  ⟨1, "", "", "", "", "cust@example.com", "venue@calentian.de", "", 1, 0,
    none, none, some 10, none⟩

/-- Concrete row already at terminal status 3. -/
def rowTerminal : MailRow :=
  ⟨2, "", "", "", "", "cust@example.com", "venue@calentian.de", "", 1, 3,
    none, some 7, none, none⟩

/-- Concrete unclassified row whose event entry 11 belongs to another
tenant (location 6, resolved entry 5). -/
def rowC3 : MailRow :=
  ⟨3, "", "", "", "", "cust@example.com", "venue@calentian.de", "", 1, 0,
    none, none, some 11, none⟩

/-- Concrete unclassified row in the matched event branch whose sender is
unknown to the customer directory. -/
def rowMiss : MailRow :=
  ⟨4, "", "", "", "", "unknown@example.com", "venue@calentian.de", "", 1, 0,
    none, none, some 10, none⟩

/-- Concrete two-row table (one unclassified row, one terminal row). -/
def tblW : List MailRow := [rowW, rowTerminal]

theorem c1_witness :
    (tblW.map MailRow.id).Nodup ∧
    (∃ r2 : MailRow, (runAssignmentPass envW tblW)[0]? = some r2 ∧
      (r2.status = 1 ∨ r2.status = 2 ∨ r2.status = 3 ∨ r2.status = 4)) :=
  ⟨by decide,
    (c1_pass_always_writes_terminal_status envW tblW (by decide)).2 0 rowW
      (by decide) (by decide)⟩

theorem c8_witness :
    (tblW.map MailRow.id).Nodup ∧ rowTerminal.status ≠ 0 ∧
      (runAssignmentPass envW tblW)[1]? = some rowTerminal :=
  ⟨by decide, by decide,
    c8_terminal_rows_unchanged envW tblW (by decide) 1 rowTerminal
      (by decide) (by decide)⟩

theorem c2_witness :
    AddrDirWF envW ∧
    ((∃ k, findKundendatenIdByEmail envW (counterpartyAddress rowW) = some k ∧
        (processRow envW rowW).customerWrite = some k ∧
        (processRow envW rowW).statusWrites = [1]) ∨
      (findKundendatenIdByEmail envW (counterpartyAddress rowW) = none ∧
        (processRow envW rowW).customerWrite = none ∧
        (processRow envW rowW).statusWrites = [2])) :=
  ⟨by unfold AddrDirWF; decide,
    (c2_event_branch_classification envW rowW 10 (some 5) (by unfold AddrDirWF; decide)
      (by decide) (by decide) (by decide) (by decide) (by decide)).2
      (by decide)⟩

theorem c3_witness :
    AddrDirWF envW ∧
    ((∃ k, findKundendatenIdByEmail envW (counterpartyAddress rowC3) = some k ∧
        (processRow envW rowC3).customerWrite = some k ∧
        (processRow envW rowC3).statusWrites = [3]) ∨
      (findKundendatenIdByEmail envW (counterpartyAddress rowC3) = none ∧
        (processRow envW rowC3).customerWrite = none ∧
        (processRow envW rowC3).statusWrites = [4])) :=
  ⟨by unfold AddrDirWF; decide,
    (c3_fallthrough_classification envW rowC3 (by unfold AddrDirWF; decide) (by decide)
      (Or.inr ⟨11, some 6, by decide, by decide, by decide⟩)).2
      (by decide)⟩

theorem c10_witness :
    (∃ r2 : MailRow, (updateEmailStatus tblW 1 2)[0]? = some r2 ∧
      EqExceptStatus rowW r2 ∧ (rowW.id ≠ 1 → r2 = rowW)) ∧
    (processRow envW rowMiss).customerWrite = none :=
  ⟨(c10_status_update_frame envW tblW 1 2).1 0 rowW (by decide),
    (c10_status_update_frame envW tblW 1 2).2 rowMiss (Or.inl (by decide))⟩

/-- Character class matched by a JavaScript regular-expression
whitespace escape in non-Unicode mode: tab, line feed, vertical tab, form
feed, carriage return, space, no-break space, ogham space mark, the
en-quad..hair-space range, line and paragraph separators, narrow no-break
space, medium mathematical space, ideographic space, and the byte-order
mark. -/
def jsWs (c : Char) : Bool :=
  c == '\t' || c == '\n' || c.toNat == 0x0b || c.toNat == 0x0c ||
  c == '\r' || c == ' ' || c.toNat == 0xa0 || c.toNat == 0x1680 ||
  (0x2000 ≤ c.toNat && c.toNat ≤ 0x200a) ||
  c.toNat == 0x2028 || c.toNat == 0x2029 || c.toNat == 0x202f ||
  c.toNat == 0x205f || c.toNat == 0x3000 || c.toNat == 0xfeff

/-- Case-insensitive match of one subject character against one lowercase
ASCII pattern letter.  ECMAScript canonicalization in non-Unicode mode
never folds a non-ASCII character to an ASCII one, so a pattern letter is
matched exactly by its lowercase and uppercase forms. -/
def ciMatches (c p : Char) : Bool := c == p || c.toLower == p

/-- Match a case-insensitive literal at the head of the input, returning
the rest on success. -/
def matchLitCI : List Char → List Char → Option (List Char)
  | [], s => some s
  | _ :: _, [] => none
  | p :: ps, c :: cs => if ciMatches c p then matchLitCI ps cs else none

/-- Greedy `cls*`: drop the longest run of class characters. -/
def skipClass (cls : Char → Bool) : List Char → List Char
  | [] => []
  | c :: cs => if cls c then skipClass cls cs else c :: cs

/-- Greedy `\d+` attempt: the longest digit run at the head and the rest. -/
def takeDigits : List Char → List Char × List Char
  | [] => ([], [])
  | c :: cs =>
    if c.isDigit then
      ((c :: (takeDigits cs).1), (takeDigits cs).2)
    else ([], c :: cs)

/-- Decimal value of a digit run (`Number` / `parseInt(.., 10)` on the
capture; the embedding is exact, ignoring double-precision rounding of
captures beyond 2^53, which no real subject line reaches). -/
def digitsToNat (ds : List Char) : Nat :=
  ds.foldl (fun a c => a * 10 + (c.toNat - 48)) 0

/-- Tail of one match attempt, `<sep2>*(\d+)`: skip the separator run
and take the digit capture; fail when no digit follows. -/
def tryMatchTail (sep2 : Char → Bool) (r3 : List Char) : Option Nat :=
  if ((takeDigits (skipClass sep2 r3)).1).isEmpty then none
  else some (digitsToNat (takeDigits (skipClass sep2 r3)).1)

/-- Attempt to match `event[-\s]*id<sep2>*(\d+)` at the head of the
input (case-insensitive).  Greedy class skipping without backtracking is
exact for these patterns: the class characters are disjoint from the
following literal letters and from the digits, so the greedy run is the
only viable one.  The classes `[-\s]` of the first variant and `[\s-]`
of the second denote the same character set. -/
def tryMatchAt (sep2 : Char → Bool) (s : List Char) : Option Nat :=
  (matchLitCI ['e', 'v', 'e', 'n', 't'] s).bind (fun r1 =>
    (matchLitCI ['i', 'd'] (skipClass (fun c => c == '-' || jsWs c) r1)).bind
      (fun r3 => tryMatchTail sep2 r3))

/-- Leftmost match of `String.prototype.match`: try every start position
from the left, returning the first success. -/
def findEventId (sep2 : Char → Bool) : List Char → Option Nat
  | [] => none
  | c :: cs =>
    match tryMatchAt sep2 (c :: cs) with
    | some n => some n
    | none => findEventId sep2 cs

/-- Separator class `[:\s]` before the digits in the part_004 persister's
pattern `event[-\s]*id[:\s]*(\d+)` (colon or whitespace; no hyphen). -/
def sepA (c : Char) : Bool := c == ':' || jsWs c

/-- Separator class `[\s:-]` before the digits in the part_005
persister's pattern `event[\s-]*id[\s:-]*(\d+)`. -/
def sepB (c : Char) : Bool := jsWs c || c == ':' || c == '-'

/-- Modelled from the spec: separator class `[:\s-]` of the pattern the
specification states, `event[-\s]*id[:\s-]*(\d+)`. -/
def sepSpec (c : Char) : Bool := c == ':' || jsWs c || c == '-'

/-- Event-id derivation of the part_004 persister (`saveMailToDB`):
`subject.match(/event[-\s]*id[:\s]*(\d+)/i)`, `Number` of the capture on
a match, null otherwise. -/
def extractEventIdA (subject : String) : Option Nat :=
  findEventId sepA subject.data

/-- Event-id derivation of the part_005 persister (`saveMailToDB`):
`subject.match(/event[\s-]*id[\s:-]*(\d+)/i)`, `parseInt(.., 10)` of the
capture on a match, null otherwise. -/
def extractEventIdB (subject : String) : Option Nat :=
  findEventId sepB subject.data

/-- Modelled from the spec: event-id derivation by the pattern the
specification (and claim C4) states, `event[-\s]*id[:\s-]*(\d+)`,
case-insensitive, null on no match. -/
def extractEventIdSpec (subject : String) : Option Nat :=
  findEventId sepSpec subject.data

theorem skipClass_congr (p q : Char → Bool) (h : ∀ c, p c = q c)
    (s : List Char) : skipClass p s = skipClass q s := by
  induction s with
  | nil => rfl
  | cons c cs ih =>
    unfold skipClass
    rw [h c]
    by_cases hc : q c = true
    · rw [if_pos hc, if_pos hc]
      exact ih
    · rw [if_neg hc, if_neg hc]

theorem tryMatchTail_congr (p q : Char → Bool) (h : ∀ c, p c = q c)
    (r3 : List Char) : tryMatchTail p r3 = tryMatchTail q r3 := by
  unfold tryMatchTail
  rw [skipClass_congr p q h r3]

theorem tryMatchAt_congr (p q : Char → Bool) (h : ∀ c, p c = q c)
    (s : List Char) : tryMatchAt p s = tryMatchAt q s := by
  unfold tryMatchAt
  cases matchLitCI ['e', 'v', 'e', 'n', 't'] s with
  | none => rfl
  | some r1 =>
    show (matchLitCI ['i', 'd'] (skipClass (fun c => c == '-' || jsWs c) r1)).bind
        (fun r3 => tryMatchTail p r3)
      = (matchLitCI ['i', 'd'] (skipClass (fun c => c == '-' || jsWs c) r1)).bind
        (fun r3 => tryMatchTail q r3)
    cases matchLitCI ['i', 'd'] (skipClass (fun c => c == '-' || jsWs c) r1) with
    | none => rfl
    | some r3 =>
      show tryMatchTail p r3 = tryMatchTail q r3
      exact tryMatchTail_congr p q h r3

theorem findEventId_congr (p q : Char → Bool) (h : ∀ c, p c = q c)
    (s : List Char) : findEventId p s = findEventId q s := by
  induction s with
  | nil => rfl
  | cons c cs ih =>
    unfold findEventId
    rw [tryMatchAt_congr p q h]
    cases tryMatchAt q (c :: cs) with
    | some n => rfl
    | none => exact ih

theorem sepB_eq_sepSpec (c : Char) : sepB c = sepSpec c := by
  unfold sepB sepSpec
  rw [Bool.or_comm (jsWs c) (c == ':')]

/-- C4 counterexample: the part_004 persister does not follow the claimed
pattern.  The subject "Event-ID-42" contains an occurrence of
`event[-\s]*id[:\s-]*(\d+)` (separators "-" and "-"), so the claim
requires event id 42, but the part_004 extraction (whose class before the
digits is `[:\s]`, without the hyphen) yields null. -/
theorem c4_counterexample :
    extractEventIdA "Event-ID-42" = none ∧
      extractEventIdSpec "Event-ID-42" = some 42 ∧
      extractEventIdA "Event-ID-42" ≠ extractEventIdSpec "Event-ID-42" := by
  refine ⟨by decide, by decide, by decide⟩

/-- C4 amended: the part_005 persister derives the event id exactly by the
claimed case-insensitive pattern `event[-\s]*id[:\s-]*(\d+)` (42 from
"Event-ID: 42", null when the pattern does not occur); the part_004
persister uses `event[-\s]*id[:\s]*(\d+)` instead, which still yields 42
from "Event-ID: 42" but, lacking the hyphen in the class before the
digits, yields null on "Event-ID-42". -/
theorem c4_event_id_extraction (subject : String) :
    extractEventIdB subject = extractEventIdSpec subject ∧
    extractEventIdA "Event-ID: 42" = some 42 ∧
    extractEventIdB "event id:7" = some 7 ∧
    extractEventIdA "Order 55 confirmed" = none ∧
    extractEventIdA "Event-ID-42" = none := by
  refine ⟨?_, by decide, by decide, by decide, by decide⟩
  exact findEventId_congr sepB sepSpec sepB_eq_sepSpec subject.data

/-- C4 witness: the amended theorem applied to a concrete subject. -/
theorem c4_witness :
    extractEventIdB "EVENT - id 314 update" = extractEventIdSpec "EVENT - id 314 update" ∧
      extractEventIdA "Event-ID: 42" = some 42 :=
  ⟨(c4_event_id_extraction "EVENT - id 314 update").1,
    (c4_event_id_extraction "EVENT - id 314 update").2.1⟩

/-- Parsed message fields consumed by `saveMailToDB`, as produced by
`simpleParser`: `html` is absent (`false`) or the HTML body, `text` may
be absent, the address fields may be missing; `date` is modelled as the
already-formatted timestamp string (the ISO slicing of the source is not
load-bearing for any claim). -/
structure ParsedMail where
  subject : Option String
  text : Option String
  html : Option String
  fromAddr : Option String
  toAddr : Option String
  toText : Option String
  date : Option String
  deriving Repr, DecidableEq

/-- JavaScript `x || ""` on a possibly absent string (an absent or empty
value collapses to the empty string either way). -/
def strOrEmpty : Option String → String
  | none => ""
  | some s => s

/-- Global single-character replacement, `s.replace(/c/g, rep)`. -/
def replaceChar (c : Char) (rep : List Char) (s : String) : String :=
  ⟨s.data.flatMap (fun x => if x = c then rep else [x])⟩

/-- Escaping used by the part_004 persister when synthesizing the HTML
body: `text.replace(/</g, "&lt;")` (only `<` is escaped). -/
def escapeLt004 (s : String) : String :=
  replaceChar '<' ['&', 'l', 't', ';'] s

/-- Escaping used by the part_005 persister: the chain
`.replace(/&/g, "&amp;").replace(/</g, "&lt;").replace(/>/g, "&gt;")`
(ampersand first, so the later passes do not touch introduced escapes). -/
def escapeHtml005 (s : String) : String :=
  replaceChar '>' ['&', 'g', 't', ';']
    (replaceChar '<' ['&', 'l', 't', ';']
      (replaceChar '&' ['&', 'a', 'm', 'p', ';'] s))

/-- HTML body stored by the part_004 persister:
`parsed.html || "<pre>" + text.replace(/</g, "&lt;") + "</pre>"`. -/
def htmlBody004 (html text : Option String) : String :=
  if jsTruthyStr html then strOrEmpty html
  else "<pre>" ++ escapeLt004 (strOrEmpty text) ++ "</pre>"

/-- HTML body stored by the part_005 persister: `parsed.html` when
truthy, else the escaped `<pre>` block around the (defaulted) text. -/
def htmlBody005 (html text : Option String) : String :=
  if jsTruthyStr html then strOrEmpty html
  else "<pre>" ++ escapeHtml005 (strOrEmpty text) ++ "</pre>"

/-- Unparsed receiver header: `parsed.to?.text || receiver`. -/
def receiverUnparsedOf (toText : Option String) (receiver : String) : String :=
  if jsTruthyStr toText then strOrEmpty toText else receiver

/-- Hexadecimal digit used by the `\u00XX` escapes of `JSON.stringify`. -/
def hexDigit (n : Nat) : Char :=
  if n < 10 then Char.ofNat (48 + n) else Char.ofNat (87 + n)

/-- Escaping of one character inside a JSON string, as `JSON.stringify`
performs it: quote and backslash are backslash-escaped, the named control
escapes are used where they exist, remaining control characters become
`\u00XX`, and everything else is emitted raw. -/
def jsonEscapeChar (c : Char) : List Char :=
  if c = '"' then ['\\', '"']
  else if c = '\\' then ['\\', '\\']
  else if c.toNat = 8 then ['\\', 'b']
  else if c = '\t' then ['\\', 't']
  else if c = '\n' then ['\\', 'n']
  else if c.toNat = 12 then ['\\', 'f']
  else if c = '\r' then ['\\', 'r']
  else if c.toNat < 32 then
    ['\\', 'u', '0', '0', hexDigit (c.toNat / 16), hexDigit (c.toNat % 16)]
  else [c]

/-- One JSON string literal. -/
def jsonQuote (s : String) : String :=
  "\"" ++ ⟨s.data.flatMap jsonEscapeChar⟩ ++ "\""

/-- Serialization `JSON.stringify` of a list of strings: a JSON array
literal with no whitespace. -/
def jsonStringifyStrings (l : List String) : String :=
  "[" ++ String.intercalate "," (l.map jsonQuote) ++ "]"

/-- Modelled from the spec: the `calentian_kunden_emails` schema is not
under src/ and the persister's INSERT omits the `status` column, so its
value comes from the schema's column default; the spec states that the
persister creates every row with `status = 0`. -/
def statusColumnDefault : Nat := 0

/-- Row inserted by the part_004 persister's INSERT statement (the row id
is assigned by auto-increment and passed here as `newId`; `now` is the
formatted fallback timestamp). -/
def saveMailToDB004 (parsed : ParsedMail) (attachments : List String)
    (newId : Nat) (now : String) : MailRow :=
  { id := newId
    subject := strOrEmpty parsed.subject
    body := strOrEmpty parsed.text
    htmlBody := htmlBody004 parsed.html parsed.text
    timestamp := (parsed.date).getD now
    sender := strOrEmpty parsed.fromAddr
    receiver := strOrEmpty parsed.toAddr
    receiver_unparsed := receiverUnparsedOf parsed.toText (strOrEmpty parsed.toAddr)
    message_ingoing := 1
    status := statusColumnDefault
    calentian_entries_id := none
    calentian_kundendaten_id := none
    calentian_event_entries_id := extractEventIdA (strOrEmpty parsed.subject)
    attachments :=
      if attachments.isEmpty then none
      else some (jsonStringifyStrings attachments) }

/-- Row inserted by the part_005 persister's INSERT statement (same
column list; different HTML escaping and event-id pattern). -/
def saveMailToDB005 (parsed : ParsedMail) (attachments : List String)
    (newId : Nat) (now : String) : MailRow :=
  { id := newId
    subject := strOrEmpty parsed.subject
    body := strOrEmpty parsed.text
    htmlBody := htmlBody005 parsed.html parsed.text
    timestamp := (parsed.date).getD now
    sender := strOrEmpty parsed.fromAddr
    receiver := strOrEmpty parsed.toAddr
    receiver_unparsed := receiverUnparsedOf parsed.toText (strOrEmpty parsed.toAddr)
    message_ingoing := 1
    status := statusColumnDefault
    calentian_entries_id := none
    calentian_kundendaten_id := none
    calentian_event_entries_id := extractEventIdB (strOrEmpty parsed.subject)
    attachments :=
      if attachments.isEmpty then none
      else some (jsonStringifyStrings attachments) }

/-- C6: every persisted row has `message_ingoing = 1` and `status = 0`,
and its `attachments` column is the `JSON.stringify` of the path list
when that list is non-empty and null when it is empty. -/
theorem c6_persisted_row_shape (parsed : ParsedMail) (attachments : List String)
    (newId : Nat) (now : String) :
    (saveMailToDB004 parsed attachments newId now).message_ingoing = 1 ∧
    (saveMailToDB004 parsed attachments newId now).status = 0 ∧
    (attachments = [] →
      (saveMailToDB004 parsed attachments newId now).attachments = none) ∧
    (attachments ≠ [] →
      (saveMailToDB004 parsed attachments newId now).attachments
        = some (jsonStringifyStrings attachments)) := by
  refine ⟨rfl, rfl, ?_, ?_⟩
  · intro h
    subst h
    rfl
  · intro h
    have he : attachments.isEmpty = false := by
      cases attachments with
      | nil => exact absurd rfl h
      | cons a l => rfl
    simp [saveMailToDB004, he]

/-- C6 witness: concrete empty and non-empty attachment lists. -/
theorem c6_witness :
    (saveMailToDB004 ⟨none, none, none, none, none, none, none⟩ [] 1 "t").attachments
        = none ∧
    (saveMailToDB004 ⟨none, none, none, none, none, none, none⟩
        ["/attachments/a.pdf"] 1 "t").attachments
        = some (jsonStringifyStrings ["/attachments/a.pdf"]) :=
  ⟨(c6_persisted_row_shape ⟨none, none, none, none, none, none, none⟩ [] 1 "t").2.2.1 rfl,
    (c6_persisted_row_shape ⟨none, none, none, none, none, none, none⟩
      ["/attachments/a.pdf"] 1 "t").2.2.2 (by simp)⟩

/-- C9 counterexample: with both the HTML and the text body absent, the
stored HTML body is the synthesized empty `<pre>` block, not the empty
string the claim states. -/
theorem c9_counterexample :
    (saveMailToDB004 ⟨none, none, none, none, none, none, none⟩ [] 1 "t").htmlBody
        = "<pre></pre>" ∧
    (saveMailToDB005 ⟨none, none, none, none, none, none, none⟩ [] 1 "t").htmlBody
        = "<pre></pre>" ∧
    ¬ (saveMailToDB004 ⟨none, none, none, none, none, none, none⟩ [] 1 "t").htmlBody
        = "" := by
  refine ⟨by decide, by decide, by decide⟩

/-- C9 amended: the persisted HTML body equals the parsed HTML body when
a non-empty one is present; when it is absent (or empty) it is the
escaped `<pre>` block around the defaulted text body (part_004 escaping
only `<`, part_005 escaping `&`, `<`, `>`); when both bodies are absent
the text defaults to the empty string and the stored HTML body is
`<pre></pre>` (not the empty string). -/
theorem c9_html_body_derivation (parsed : ParsedMail) (attachments : List String)
    (newId : Nat) (now : String) :
    (∀ h : String, parsed.html = some h → h ≠ "" →
      (saveMailToDB004 parsed attachments newId now).htmlBody = h ∧
      (saveMailToDB005 parsed attachments newId now).htmlBody = h) ∧
    (jsTruthyStr parsed.html = false →
      (saveMailToDB004 parsed attachments newId now).htmlBody
          = "<pre>" ++ escapeLt004 (strOrEmpty parsed.text) ++ "</pre>" ∧
      (saveMailToDB005 parsed attachments newId now).htmlBody
          = "<pre>" ++ escapeHtml005 (strOrEmpty parsed.text) ++ "</pre>") ∧
    (parsed.html = none → parsed.text = none →
      (saveMailToDB004 parsed attachments newId now).htmlBody = "<pre></pre>" ∧
      (saveMailToDB005 parsed attachments newId now).htmlBody = "<pre></pre>") := by
  refine ⟨?_, ?_, ?_⟩
  · intro h hh hne
    have htr : jsTruthyStr parsed.html = true := by
      rw [hh]
      simpa [jsTruthyStr] using hne
    constructor
    · show htmlBody004 parsed.html parsed.text = h
      rw [htmlBody004, htr]
      simp [strOrEmpty, hh]
    · show htmlBody005 parsed.html parsed.text = h
      rw [htmlBody005, htr]
      simp [strOrEmpty, hh]
  · intro hfa
    constructor
    · show htmlBody004 parsed.html parsed.text = _
      rw [htmlBody004, hfa]
      simp
    · show htmlBody005 parsed.html parsed.text = _
      rw [htmlBody005, hfa]
      simp
  · intro hh ht
    constructor
    · show htmlBody004 parsed.html parsed.text = _
      rw [hh, ht]
      rfl
    · show htmlBody005 parsed.html parsed.text = _
      rw [hh, ht]
      rfl

/-- C9 witness: a present HTML body is stored verbatim, and a message
with neither body stores `<pre></pre>`. -/
theorem c9_witness :
    ((saveMailToDB004 ⟨some "Hello", some "hi", some "<b>hi</b>", none, none, none, none⟩
        [] 1 "t").htmlBody = "<b>hi</b>" ∧
      (saveMailToDB005 ⟨some "Hello", some "hi", some "<b>hi</b>", none, none, none, none⟩
        [] 1 "t").htmlBody = "<b>hi</b>") ∧
    ((saveMailToDB004 ⟨none, none, none, none, none, none, none⟩ [] 1 "t").htmlBody
        = "<pre></pre>" ∧
      (saveMailToDB005 ⟨none, none, none, none, none, none, none⟩ [] 1 "t").htmlBody
        = "<pre></pre>") :=
  ⟨(c9_html_body_derivation
      ⟨some "Hello", some "hi", some "<b>hi</b>", none, none, none, none⟩ [] 1 "t").1
      "<b>hi</b>" rfl (by decide),
    (c9_html_body_derivation ⟨none, none, none, none, none, none, none⟩ [] 1 "t").2.2
      rfl rfl⟩

/-- One MIME attachment as the Attachment Store sees it: a possibly
absent filename.  The content bytes are written verbatim and never
inspected by the name-assignment logic, so the model tracks names only. -/
structure Attachment where
  filename : Option String
  deriving Repr, DecidableEq

/-- Effective file name of one attachment:
`a.filename || "attachment_" + uid` (an absent or empty filename falls
back to the synthesized name). -/
def effName (a : Attachment) (uid : Nat) : String :=
  if jsTruthyStr a.filename then strOrEmpty a.filename
  else "attachment_" ++ Nat.repr uid

/-- Index of the last dot of a flat file name, if any. -/
def lastDotIdxAux : List Char → Nat → Option Nat
  | [], _ => none
  | c :: cs, k =>
    match lastDotIdxAux cs (k + 1) with
    | some j => some j
    | none => if c = '.' then some k else none

/-- Index of the last dot in the whole name. -/
def lastDotIdx (l : List Char) : Option Nat := lastDotIdxAux l 0

/-- Split a flat file name (attachment names carry no path separators)
into `path.basename(name, path.extname(name))` and `path.extname(name)`:
the extension starts at the last dot, except that a leading dot and the
name ".." yield no extension. -/
def extSplit (name : String) : String × String :=
  if name = ".." then (name, "")
  else
    match lastDotIdx name.data with
    | none => (name, "")
    | some 0 => (name, "")
    | some i => (⟨name.data.take i⟩, ⟨name.data.drop i⟩)

/-- Candidate name with a parenthesized counter before the extension,
`base(cnt)ext`. -/
def candName (base ext : String) (cnt : Nat) : String :=
  base ++ "(" ++ Nat.repr cnt ++ ")" ++ ext

/-- Probe loop of `saveAttachments`: while the current destination
exists (`fs.access` succeeds), move to the candidate with the next
counter.  `fuel` bounds the number of probes — the real loop terminates
because the directory holds finitely many names — and `none` reports
exhausted fuel. -/
def probeLoop (fs : List String) (base ext : String) :
    String → Nat → Nat → Option String
  | _, _, 0 => none
  | dest, cnt, fuel + 1 =>
    if dest ∈ fs then probeLoop fs base ext (candName base ext cnt) (cnt + 1) fuel
    else some dest

/-- Destination name chosen for one attachment: start at the plain name
with the counter at 1. -/
def chooseDest (fs : List String) (fname : String) (fuel : Nat) : Option String :=
  probeLoop fs (extSplit fname).1 (extSplit fname).2 fname 1 fuel

/-- The `saveAttachments` loop: each attachment receives its chosen
destination, the file is written (so the name exists from then on), and
the URL path `/attachments/<name>` is recorded in input order.  Returns
the recorded paths and the final directory contents. -/
def saveAttachments (fs : List String) (atts : List Attachment) (uid : Nat)
    (fuel : Nat) : Option (List String × List String) :=
  match atts with
  | [] => some ([], fs)
  | a :: rest =>
    match chooseDest fs (effName a uid) fuel with
    | none => none
    | some d =>
      match saveAttachments (d :: fs) rest uid fuel with
      | none => none
      | some pr => some (("/attachments/" ++ d) :: pr.1, pr.2)

/-- Modelled from the spec: the name-assignment contract of the
Attachment Store for a single attachment — the plain name when it is
free, otherwise the parenthesized-counter candidate with the lowest
counter whose name is free. -/
def FirstFree (fs : List String) (fname d : String) : Prop :=
  (fname ∉ fs ∧ d = fname) ∨
  (fname ∈ fs ∧ d ∉ fs ∧
    ∃ k, 1 ≤ k ∧ d = candName (extSplit fname).1 (extSplit fname).2 k ∧
      ∀ j, 1 ≤ j → j < k → candName (extSplit fname).1 (extSplit fname).2 j ∈ fs)

/-- Modelled from the spec: relational description of one Attachment
Store run — in input order, each attachment's effective name is resolved
to the first free destination, which is then occupied, and the path
`/attachments/<name>` is recorded. -/
inductive SaveRun (uid : Nat) :
    List String → List Attachment → List String → List String → Prop
  | nil : ∀ fs, SaveRun uid fs [] [] fs
  | cons : ∀ fs a rest d paths fsFinal,
      FirstFree fs (effName a uid) d →
      SaveRun uid (d :: fs) rest paths fsFinal →
      SaveRun uid fs (a :: rest) (("/attachments/" ++ d) :: paths) fsFinal

theorem probeLoop_firstFree (fs : List String) (base ext : String) :
    ∀ (fuel cnt : Nat) (dest d : String),
      probeLoop fs base ext dest cnt fuel = some d →
      (dest ∉ fs ∧ d = dest) ∨
      (dest ∈ fs ∧ d ∉ fs ∧ ∃ k, cnt ≤ k ∧ d = candName base ext k ∧
        ∀ j, cnt ≤ j → j < k → candName base ext j ∈ fs) := by
  intro fuel
  induction fuel with
  | zero =>
    intro cnt dest d h
    exact absurd h (by simp [probeLoop])
  | succ fuel ih =>
    intro cnt dest d h
    unfold probeLoop at h
    by_cases hd : dest ∈ fs
    · rw [if_pos hd] at h
      rcases ih (cnt + 1) (candName base ext cnt) d h with
        ⟨hc, hdd⟩ | ⟨hc, hdn, k, hk, hdk, hall⟩
      · right
        refine ⟨hd, hdd ▸ hc, cnt, le_refl cnt, hdd, ?_⟩
        intro j hj1 hj2
        exact absurd (lt_of_le_of_lt hj1 hj2) (lt_irrefl cnt)
      · right
        refine ⟨hd, hdn, k, le_trans (Nat.le_succ cnt) hk, hdk, ?_⟩
        intro j hj1 hj2
        rcases Nat.eq_or_lt_of_le hj1 with heq | hlt
        · rw [← heq]
          exact hc
        · exact hall j hlt hj2
    · rw [if_neg hd] at h
      exact Or.inl ⟨hd, (Option.some.inj h).symm⟩

theorem chooseDest_firstFree (fs : List String) (fname : String) (fuel : Nat)
    (d : String) (h : chooseDest fs fname fuel = some d) :
    FirstFree fs fname d := by
  unfold chooseDest at h
  rcases probeLoop_firstFree fs _ _ fuel 1 fname d h with
    ⟨hn, hd⟩ | ⟨hmem, hdn, k, hk, hdk, hall⟩
  · exact Or.inl ⟨hn, hd⟩
  · exact Or.inr ⟨hmem, hdn, k, hk, hdk, hall⟩

theorem saveAttachments_run (uid fuel : Nat) :
    ∀ (atts : List Attachment) (fs paths fsF : List String),
      saveAttachments fs atts uid fuel = some (paths, fsF) →
      SaveRun uid fs atts paths fsF := by
  intro atts
  induction atts with
  | nil =>
    intro fs paths fsF h
    unfold saveAttachments at h
    rw [Option.some_inj] at h
    injection h with h1 h2
    subst h1
    subst h2
    exact SaveRun.nil fs
  | cons a rest ih =>
    intro fs paths fsF h
    unfold saveAttachments at h
    cases hcd : chooseDest fs (effName a uid) fuel with
    | none =>
      rw [hcd] at h
      exact absurd h (by simp)
    | some d =>
      rw [hcd] at h
      have h2 : (match saveAttachments (d :: fs) rest uid fuel with
          | none => none
          | some pr => some (("/attachments/" ++ d) :: pr.1, pr.2))
          = some (paths, fsF) := h
      cases hrec : saveAttachments (d :: fs) rest uid fuel with
      | none =>
        rw [hrec] at h2
        exact absurd h2 (by simp)
      | some pr =>
        rw [hrec, Option.some_inj] at h2
        injection h2 with h3 h4
        subst h3
        subst h4
        exact SaveRun.cons fs a rest d pr.1 pr.2
          (chooseDest_firstFree fs (effName a uid) fuel d hcd)
          (ih (d :: fs) pr.1 pr.2 (by rw [hrec]))

theorem saveRun_length {uid : Nat} {fs atts paths fsF}
    (h : SaveRun uid fs atts paths fsF) : paths.length = atts.length := by
  induction h with
  | nil fs => rfl
  | cons fs a rest d paths fsF hff hrun ih => simp [ih]

theorem saveRun_fresh {uid : Nat} {fs atts paths fsF}
    (h : SaveRun uid fs atts paths fsF) :
    ∀ p ∈ paths, ∃ d, d ∉ fs ∧ p = "/attachments/" ++ d := by
  induction h with
  | nil fs =>
    intro p hp
    exact absurd hp (List.not_mem_nil p)
  | cons fs a rest d paths fsF hff hrun ih =>
    intro p hp
    rcases List.mem_cons.mp hp with heq | hmem
    · refine ⟨d, ?_, heq⟩
      rcases hff with ⟨hn, hd⟩ | ⟨_, hdn, _⟩
      · rw [hd]
        exact hn
      · exact hdn
    · obtain ⟨d2, hd2, hpd⟩ := ih p hmem
      exact ⟨d2, fun hmem2 => hd2 (List.mem_cons_of_mem d hmem2), hpd⟩

theorem string_append_left_cancel {s a b : String} (h : s ++ a = s ++ b) :
    a = b := by
  have h2 : s.data ++ a.data = s.data ++ b.data := by
    have h3 := congrArg String.data h
    simpa using h3
  have h4 : a.data = b.data := List.append_cancel_left h2
  cases a
  cases b
  exact congrArg String.mk h4

theorem saveRun_nodup {uid : Nat} {fs atts paths fsF}
    (h : SaveRun uid fs atts paths fsF) : paths.Nodup := by
  induction h with
  | nil fs => exact List.nodup_nil
  | cons fs a rest d paths fsF hff hrun ih =>
    refine List.nodup_cons.mpr ⟨?_, ih⟩
    intro hmem
    obtain ⟨d2, hd2, hpd⟩ := saveRun_fresh hrun _ hmem
    have hdd : d = d2 := string_append_left_cancel hpd
    exact hd2 (hdd ▸ List.mem_cons_self d fs)

/-- C5: a successful Attachment Store run realizes the first-free-name
contract in input order (`SaveRun`), returns one path per attachment,
all returned paths distinct and distinct from every pre-existing name;
and a missing filename falls back to the name synthesized from the
message identifier. -/
theorem c5_attachment_store (fs : List String) (atts : List Attachment)
    (uid fuel : Nat) (paths fsF : List String)
    (h : saveAttachments fs atts uid fuel = some (paths, fsF)) :
    SaveRun uid fs atts paths fsF ∧
    paths.length = atts.length ∧
    paths.Nodup ∧
    (∀ p ∈ paths, ∃ d, d ∉ fs ∧ p = "/attachments/" ++ d) ∧
    (∀ uid2 : Nat, effName ⟨none⟩ uid2 = "attachment_" ++ Nat.repr uid2) := by
  have hrun := saveAttachments_run uid fuel atts fs paths fsF h
  exact ⟨hrun, saveRun_length hrun, saveRun_nodup hrun, saveRun_fresh hrun,
    fun uid2 => rfl⟩

/-- C5 witness: two attachments both named "invoice.pdf" on an empty
directory are stored as "invoice.pdf" and "invoice(1).pdf", in input
order, with distinct paths. -/
theorem c5_witness :
    saveAttachments [] [⟨some "invoice.pdf"⟩, ⟨some "invoice.pdf"⟩] 7 3
        = some (["/attachments/invoice.pdf", "/attachments/invoice(1).pdf"],
            ["invoice(1).pdf", "invoice.pdf"]) ∧
    (["/attachments/invoice.pdf", "/attachments/invoice(1).pdf"] :
        List String).Nodup :=
  ⟨by decide,
    (c5_attachment_store [] [⟨some "invoice.pdf"⟩, ⟨some "invoice.pdf"⟩] 7 3
      ["/attachments/invoice.pdf", "/attachments/invoice(1).pdf"]
      ["invoice(1).pdf", "invoice.pdf"] (by decide)).2.2.1⟩

/-- Relocation targets of the Mailbox Poller. -/
inductive MailFolder
  | done
  | failed
  deriving Repr, DecidableEq

/-- Outcomes of the steps of one `processNewestMail` call, as inputs of
the embedding: the fetch either delivers the raw source or emits an
error event; parsing, attachment storage and the database insert each
either return a value or throw.  `moveMessage` itself never rejects (its
promise only resolves, also on move errors and on the 2-second timeout),
so a move is modelled as the emission of its target folder. -/
structure PollStepResults where
  fetchRes : Except String String
  parseRes : Except String ParsedMail
  attRes : Except String (List String)
  dbRes : Except String Unit

/-- Folder moves issued by the fetch-end handler of `processNewestMail`:
the try block parses, stores the attachments, persists the row, then
moves the message to DONE; a throw from any of those steps lands in the
catch block, which moves it to FAILED instead. -/
def fetchEndMoves (parseRes : Except String ParsedMail)
    (attRes : Except String (List String)) (dbRes : Except String Unit) :
    List MailFolder :=
  match parseRes with
  | Except.error _ => [MailFolder.failed]
  | Except.ok _ =>
    match attRes with
    | Except.error _ => [MailFolder.failed]
    | Except.ok _ =>
      match dbRes with
      | Except.error _ => [MailFolder.failed]
      | Except.ok _ => [MailFolder.done]

/-- Folder moves of one `processNewestMail` call: a fetch error event
invokes the continuation without any move; a delivered source runs the
fetch-end handler. -/
def processNewestMailMoves (r : PollStepResults) : List MailFolder :=
  match r.fetchRes with
  | Except.error _ => []
  | Except.ok _ => fetchEndMoves r.parseRes r.attRes r.dbRes

/-- C7: once the fetch has delivered a message, exactly one relocation is
issued: DONE exactly when parse, attachment storage and persistence all
succeed, FAILED on any processing exception; no processing attempt ends
with zero or two relocations. -/
theorem c7_exactly_one_relocation (r : PollStepResults) (buf : String)
    (hfetch : r.fetchRes = Except.ok buf) :
    (processNewestMailMoves r = [MailFolder.done] ∨
      processNewestMailMoves r = [MailFolder.failed]) ∧
    (processNewestMailMoves r).length = 1 ∧
    (processNewestMailMoves r = [MailFolder.done] ↔
      ((∃ p, r.parseRes = Except.ok p) ∧ (∃ l, r.attRes = Except.ok l) ∧
        (∃ u, r.dbRes = Except.ok u))) := by
  rcases r with ⟨fr, pr, ar, dr⟩
  simp only at hfetch
  subst hfetch
  simp only [processNewestMailMoves, fetchEndMoves]
  cases pr <;> cases ar <;> cases dr <;> simp

/-- C7 witness: a fully successful attempt relocates to DONE, and an
attempt whose persistence throws relocates to FAILED. -/
theorem c7_witness :
    processNewestMailMoves
        ⟨Except.ok "raw", Except.ok ⟨none, none, none, none, none, none, none⟩,
          Except.ok [], Except.ok ()⟩ = [MailFolder.done] ∧
    (processNewestMailMoves
        ⟨Except.ok "raw", Except.ok ⟨none, none, none, none, none, none, none⟩,
          Except.ok [], Except.error "db down"⟩ = [MailFolder.done] ∨
      processNewestMailMoves
        ⟨Except.ok "raw", Except.ok ⟨none, none, none, none, none, none, none⟩,
          Except.ok [], Except.error "db down"⟩ = [MailFolder.failed]) :=
  ⟨(c7_exactly_one_relocation
      ⟨Except.ok "raw", Except.ok ⟨none, none, none, none, none, none, none⟩,
        Except.ok [], Except.ok ()⟩ "raw" rfl).2.2.mpr
      ⟨⟨_, rfl⟩, ⟨_, rfl⟩, ⟨_, rfl⟩⟩,
    (c7_exactly_one_relocation
      ⟨Except.ok "raw", Except.ok ⟨none, none, none, none, none, none, none⟩,
        Except.ok [], Except.error "db down"⟩ "raw" rfl).1⟩

end Calentian
